import Mathlib

/-!
Verification development for the TicTacToeRealTimeSync repository.

The repository's checked-in sources are the React frontend (game page,
lobby, replay page, websocket hook, API layer).  The backend components
(Board Engine, Session Store, Replay Reconstructor, Connection Hub) are
not present in the tree, so those pieces are modelled from the written
specification; every such definition is marked `Modelled from the spec:`.
All other definitions are direct shallow embeddings of the JavaScript
source, with the file and function named in the doc comment.
-/

namespace TTT

/-- A mark on the board: `X` or `O`. -/
inductive Mark where
  | X
  | O
deriving DecidableEq, Repr

/-- One board cell: `none` is empty, `some m` holds mark `m`. -/
abbrev Cell : Type := Option Mark

/-- The board: an ordered 9-cell list, each cell empty, X or O. -/
abbrev Board : Type := List Cell

/-- The empty starting board. -/
def emptyBoard : Board := List.replicate 9 (none : Option Mark)

/-- One entry of the move log: the acting mark and the cell index (0-8).
(The monotonic timestamp of the log is irrelevant to every claim and
is omitted.) -/
structure Move where
  symbol : Mark
  position : Nat
deriving DecidableEq, Repr

/-- Game mode, `local` or `online`. -/
inductive Mode where
  | local
  | online
deriving DecidableEq, Repr

/-- Game status, one of `waiting`, `in_progress`, `completed`. -/
inductive Status where
  | waiting
  | in_progress
  | completed
deriving DecidableEq, Repr

/-- The game document as the frontend receives it: mode, status, the two
participant bindings, the cached board / turn / outcome projection
(`game.state.*` in the JSON), and the move log `game.moves`. -/
structure GameView where
  mode : Mode
  status : Status
  player_x_id : Option String
  player_o_id : Option String
  board : Board
  current_turn : Mark
  winner : Option Mark
  is_draw : Bool
  winning_line : Option (Nat × Nat × Nat)
  moves : List Move
deriving DecidableEq

/-- Modelled from the spec: the Board Engine's `apply(board, mark, cell)`,
which fails (returns `none`) when the cell is outside 0-8 or already
occupied, and otherwise places the supplied mark.  (The Board Engine
itself is not in the checked-in sources.) -/
def apply (b : Board) (mark : Mark) (cell : Nat) : Option Board :=
  if cell < 9 then
    match List.get? b cell with
    | some none => some (List.set b cell (some mark))
    | _ => none
  else none

/-- Modelled from the spec: the left-to-right fold of a move log through
the Board Engine's `apply`, starting from a given board; `none` if any
move in the log is illegal. -/
def foldApply (b : Board) : List Move → Option Board
  | [] => some b
  | m :: ms =>
    match apply b m.symbol m.position with
    | none => none
    | some b2 => foldApply b2 ms

/-- One replay snapshot: a board state paired with the move that produced
it (`none` for the initial empty board). -/
structure Snapshot where
  board : Board
  move : Option Move
deriving DecidableEq

/-- The default snapshot used for out-of-range reads in statements. -/
def defaultSnap : Snapshot := ⟨emptyBoard, none⟩

/-- The default move used for out-of-range reads in statements. -/
def defaultMove : Move := ⟨Mark.X, 0⟩

/-- Modelled from the spec: the recursive worker of the Replay
Reconstructor — applies each move in turn and records the resulting
board together with the move that produced it. -/
def reconstructFrom (b : Board) : List Move → Option (List Snapshot)
  | [] => some []
  | m :: ms =>
    match apply b m.symbol m.position with
    | none => none
    | some b2 =>
      match reconstructFrom b2 ms with
      | none => none
      | some rest => some (⟨b2, some m⟩ :: rest)

/-- Modelled from the spec: the Replay Reconstructor's `reconstruct` —
a left-to-right fold of the move log through the Board Engine's `apply`,
producing the ordered snapshot sequence whose index 0 is the empty board
(length = len(move log) + 1).  (The Replay Reconstructor is not in the
checked-in sources; the frontend receives its output as
`replayData.snapshots`.) -/
def reconstruct (moves : List Move) : Option (List Snapshot) :=
  match reconstructFrom emptyBoard moves with
  | none => none
  | some rest => some (⟨emptyBoard, none⟩ :: rest)

/-- The 8 fixed win lines, in the deterministic scan order of the spec:
3 rows, 3 columns, 2 diagonals. -/
def winLines : List (Nat × Nat × Nat) :=
  [(0, 1, 2), (3, 4, 5), (6, 7, 8),
   (0, 3, 6), (1, 4, 7), (2, 5, 8),
   (0, 4, 8), (2, 4, 6)]

/-- Modelled from the spec: does the given line hold three equal
non-empty marks on this board?  Returns the winning mark if so. -/
def lineWinner (b : Board) (l : Nat × Nat × Nat) : Option Mark :=
  match List.getD b l.1 none with
  | none => none
  | some m =>
    if List.getD b l.2.1 none = some m ∧ List.getD b l.2.2 none = some m then
      some m
    else none

/-- Modelled from the spec: the first winning line found in the fixed
scan order, with its mark. -/
def findWin (b : Board) : List (Nat × Nat × Nat) → Option (Mark × (Nat × Nat × Nat))
  | [] => none
  | l :: ls =>
    match lineWinner b l with
    | some m => some (m, l)
    | none => findWin b ls

/-- Terminal evaluation result of a board. -/
inductive Outcome where
  | in_progress
  | win (m : Mark) (t : Nat × Nat × Nat)
  | draw
deriving DecidableEq

/-- Modelled from the spec: the Board Engine's `evaluate(board)` — win
detection over the 8 fixed lines (first match in scan order), then draw
only when all 9 cells are filled and no win was found. -/
def evaluate (b : Board) : Outcome :=
  match findWin b winLines with
  | some (m, t) => Outcome.win m t
  | none =>
    if List.all b (fun c => c ≠ none) then Outcome.draw
    else Outcome.in_progress

/-- The (winner, is_draw, winning_line) projection of an outcome, as the
stored game document carries it. -/
def outcomeFields : Outcome → Option Mark × Bool × Option (Nat × Nat × Nat)
  | Outcome.in_progress => (none, false, none)
  | Outcome.win m t => (some m, false, some t)
  | Outcome.draw => (none, true, none)

/-- The stored-document invariant of the spec (§3, §8): the cached board
is the fold of the move log through `apply`, and the stored outcome
fields are the projection of `evaluate` on that board. -/
def StoredInvariant (g : GameView) : Prop :=
  foldApply emptyBoard g.moves = some g.board ∧
  (g.winner, g.is_draw, g.winning_line) = outcomeFields (evaluate g.board)

/-- JavaScript strict equality `a === b` between `player?.id` (undefined
when no player, modelled `none`) and a nullable id field (null when
unbound, modelled `none`): two strings compare by value; `undefined`
and `null` never compare equal to a string nor to each other. -/
def idEq : Option String → Option String → Bool
  | some a, some b => a = b
  | _, _ => false

/-- A move request issued to the API (`makeMove(gameId, player.id,
position)` in `lib/api.js`). -/
structure MoveReq where
  playerId : Option String
  position : Nat
deriving DecidableEq

/-- Embeds `GamePage.handleCellClick` (hooks page source): returns the
move request submitted, or `none` when the handler returns without
submitting.  The guard chain is: no game / not `in_progress` /
`actionLoading` → return; `isPlayerX = (player?.id === game.player_x_id)`;
`isMyTurn = (turn === 'X' && isPlayerX) || (turn === 'O' && !isPlayerX)`;
submit iff `game.mode === 'local' || isMyTurn`. -/
def handleCellClick (game : Option GameView) (actionLoading : Bool)
    (playerId : Option String) (position : Nat) : Option MoveReq :=
  match game with
  | none => none
  | some g =>
    if g.status = Status.in_progress ∧ actionLoading = false then
      let isPlayerX : Bool := idEq playerId g.player_x_id
      let isMyTurn : Bool :=
        (decide (g.current_turn = Mark.X) && isPlayerX) ||
        (decide (g.current_turn = Mark.O) && !isPlayerX)
      if decide (g.mode = Mode.local) || isMyTurn then
        some ⟨playerId, position⟩
      else none
    else none

/-- Embeds the state effect of `handleCellClick`: when no request is
issued the held game state is untouched; when a request is issued the
held state becomes the server's response.  Returns (new held state,
whether a request was issued). -/
def clickStep (game : Option GameView) (actionLoading : Bool)
    (playerId : Option String) (position : Nat) (response : GameView) :
    Option GameView × Bool :=
  match handleCellClick game actionLoading playerId position with
  | none => (game, false)
  | some _ => (some response, true)

/-- Embeds the `disabled` prop GamePage passes to `GameBoard`:
`isGameOver || game.status === 'waiting' || actionLoading`. -/
def gameBoardDisabled (g : GameView) (actionLoading : Bool) : Bool :=
  decide (g.status = Status.completed) ||
  decide (g.status = Status.waiting) || actionLoading

/-- Embeds `GameBoard`'s per-cell disabling: each `GameCell` receives
`disabled={disabled || cell !== null}`, so a disabled button never
fires its click handler. -/
def gameCellDisabled (boardDisabled : Bool) (cell : Cell) : Bool :=
  boardDisabled || decide (cell ≠ none)

/-- The push-channel messages GamePage's message effect distinguishes
(hooks page source, websocket-message effect). -/
inductive WsMsg where
  | game_update (g : GameView)
  | connected (g : GameView)
  | player_joined (g : GameView)
  | player_disconnected
  | rematch_created (new_game_id : String)
deriving DecidableEq

/-- Embeds GamePage's websocket-message effect: returns (new held game
state, navigation target if any).  `game_update` / `connected` /
`player_joined` replace the held game with the message's game;
`player_disconnected` only shows a warning toast; `rematch_created`
navigates to the new game id. -/
def onWsMessage (msg : WsMsg) (game : Option GameView) :
    Option GameView × Option String :=
  match msg with
  | WsMsg.game_update g => (some g, none)
  | WsMsg.connected g => (some g, none)
  | WsMsg.player_joined g => (some g, none)
  | WsMsg.player_disconnected => (game, none)
  | WsMsg.rematch_created nid => (game, some ("/game/" ++ nid))

/-- An inbound websocket payload after `JSON.parse`, keyed by its
`type` field. -/
structure InMsg where
  type : String
deriving DecidableEq

/-- State of the `useWebSocket` hook's connection bookkeeping. -/
structure WsConnState where
  isConnected : Bool
  socketCreated : Bool
  pingIntervalActive : Bool
  reconnectScheduledMs : Option Nat
deriving DecidableEq

/-- The hook's initial state: `useState(false)` for `isConnected`, no
socket, no interval, no pending reconnect. -/
def initialWsState : WsConnState := ⟨false, false, false, none⟩

/-- The ping interval period of `useWebSocket` (milliseconds): the hook
sends `{type: 'ping'}` every 30000 ms while the socket is open. -/
def pingIntervalMs : Nat := 30000

/-- The reconnect delay of `useWebSocket` (milliseconds): on close a
reconnect is scheduled after 2000 ms. -/
def reconnectDelayMs : Nat := 2000

/-- Embeds the body of the hook's ping interval callback: if the socket
is in the OPEN ready state the message `{type: 'ping'}` is sent,
otherwise nothing is sent. -/
def pingTick (readyStateOpen : Bool) : Option InMsg :=
  if readyStateOpen then some ⟨"ping"⟩ else none

/-- Embeds the hook's `onmessage` handler: `JSON.parse` failure
(modelled `none`) leaves `lastMessage` unchanged; a parsed message of
type `pong` is dropped; every other parsed message becomes the new
`lastMessage`. -/
def onWsRaw (parsed : Option InMsg) (lastMessage : Option InMsg) :
    Option InMsg :=
  match parsed with
  | none => lastMessage
  | some d => if d.type = "pong" then lastMessage else some d

/-- Embeds the hook's `onopen` handler: marks connected, clears the
error, starts the ping interval. -/
def onWsOpen (s : WsConnState) : WsConnState :=
  { s with isConnected := true, pingIntervalActive := true }

/-- Embeds the hook's `onclose` handler: marks disconnected, clears the
ping interval, schedules a reconnect attempt after 2000 ms. -/
def onWsClose (s : WsConnState) : WsConnState :=
  { s with
    isConnected := false
    pingIntervalActive := false
    reconnectScheduledMs := some reconnectDelayMs }

/-- JavaScript truthiness of a nullable string: `null` / `undefined`
(modelled `none`) and the empty string are falsy. -/
def strTruthy : Option String → Bool
  | none => false
  | some s => decide (s ≠ "")

/-- Embeds the hook's `connect` callback: `if (!gameId || !playerId)
return;` — otherwise a `WebSocket` is constructed for the game/player
pair. -/
def connect (gameId playerId : Option String) (s : WsConnState) :
    WsConnState :=
  if strTruthy gameId && strTruthy playerId then
    { s with socketCreated := true }
  else s

/-- Embeds the game-id argument GamePage passes to `useWebSocket`:
`game?.mode === 'online' ? gameId : null`. -/
def wsHookGameId (game : Option GameView) (gameId : String) :
    Option String :=
  match game with
  | some g => if g.mode = Mode.online then some gameId else none
  | none => none

/-- JavaScript `String.prototype.toUpperCase` on the ASCII codes these
codes use, as `Char.toUpper` per character. -/
def jsToUpper (s : String) : String :=
  String.mk (List.map Char.toUpper (String.toList s))

/-- Is this character stripped by JavaScript `String.prototype.trim`?
(The whitespace forms enterable in the code input.) -/
def jsWhitespaceChar (c : Char) : Bool :=
  c = ' ' || c = '\t' || c = '\n' || c = '\r'

/-- JavaScript `String.prototype.trim`: strips leading and trailing
whitespace. -/
def jsTrim (s : String) : String :=
  String.mk
    (((String.toList s).dropWhile jsWhitespaceChar).reverse.dropWhile
        jsWhitespaceChar).reverse

/-- Embeds the code-input `onChange` of HomePage's join dialog combined
with the input's `maxLength={6}`: the stored `gameCode` state is the
uppercase of the (at most 6 characters of) typed text. -/
def gameCodeInput (typed : String) : String :=
  jsToUpper (String.mk ((String.toList typed).take 6))

/-- Embeds the `disabled={loading || gameCode.length !== 6}` gate of the
join dialog's submit button, as the enabledness of the join action. -/
def joinButtonEnabled (loading : Bool) (gameCode : String) : Bool :=
  !(loading || decide (gameCode.length ≠ 6))

/-- Embeds `api.joinGameByCode`: the `code` field transmitted in the
join-by-code request body is `code.toUpperCase()`. -/
def joinGameByCodeSent (code : String) : String := jsToUpper code

/-- Embeds `api.getGameByCode`: the code segment of the lookup-by-code
request path is `code.toUpperCase()`. -/
def getGameByCodeSent (code : String) : String := jsToUpper code

/-- Embeds HomePage's `handleJoinByCode`: returns the code transmitted
by the issued join-by-code request, or `none` when no request is issued
(`if (!player || !gameCode.trim())` aborts; otherwise
`joinGameByCode(gameCode.trim(), player.id)` is called). -/
def handleJoinByCode (player : Option String) (gameCode : String) :
    Option String :=
  if player.isSome && decide (jsTrim gameCode ≠ "") then
    some (joinGameByCodeSent (jsTrim gameCode))
  else none

/-- Embeds `MoveHistory.positionToCoord` (the numeric pair it formats):
`row = Math.floor(pos / 3) + 1`, `col = (pos % 3) + 1`. -/
def positionToCoord (pos : Nat) : Nat × Nat := (pos / 3 + 1, pos % 3 + 1)

/-- One rendered entry of `MoveHistory`: the snapshot index its click
handler passes to `onMoveClick`, and its label (`"Start"` for entry 0,
the acting mark's symbol for the others). -/
structure MoveItem where
  clickIndex : Nat
  label : String
deriving DecidableEq

/-- The mark's rendered symbol. -/
def markString : Mark → String
  | Mark.X => "X"
  | Mark.O => "O"

/-- Embeds the entry list `MoveHistory` renders: a leading `"Start"`
entry clicking to index 0, then one entry per move `i` clicking to
index `i + 1` and showing the move's symbol. -/
def moveHistoryItems (moves : List Move) : List MoveItem :=
  ⟨0, "Start"⟩ ::
    List.map (fun p => ⟨p.1 + 1, markString p.2.symbol⟩) (List.enum moves)

/-- The replay page's playback state: the current move index and the
playing flag (`useState(0)` / `useState(false)`).  The index is an
integer (JavaScript number arithmetic on it stays integral). -/
structure ReplayState where
  currentMoveIndex : Int
  isPlaying : Bool
deriving DecidableEq

/-- The replay page's initial playback state. -/
def initialReplayState : ReplayState := ⟨0, false⟩

/-- The replay control operations of `ReplayPage` / `ReplayControls` /
`MoveHistory`: the play-interval tick, pause, play, step back, step
forward, go to start, go to end, a slider seek carrying the slider
value, and a move-history click carrying the entry's index. -/
inductive ReplayOp where
  | playTick
  | pause
  | play
  | stepBack
  | stepForward
  | goToStart
  | goToEnd
  | seek (v : Int)
  | moveClick (i : Int)
deriving DecidableEq

/-- Embeds the `ReplayPage` handlers acting on the playback state
(`total` is `replayData.total_moves`):
tick: while playing, `prev >= total ? (stop, prev) : prev + 1`;
`handleStepBack`: `Math.max(0, prev - 1)`;
`handleStepForward`: `Math.min(total, prev + 1)`;
`handleGoToStart` / `handleGoToEnd` / `handleSeek` / `handleMoveClick`
set the index directly; all of them stop playback. -/
def replayStep (total : Int) (s : ReplayState) : ReplayOp → ReplayState
  | ReplayOp.playTick =>
    if s.isPlaying then
      if s.currentMoveIndex ≥ total then { s with isPlaying := false }
      else { s with currentMoveIndex := s.currentMoveIndex + 1 }
    else s
  | ReplayOp.pause => { s with isPlaying := false }
  | ReplayOp.play => { s with isPlaying := true }
  | ReplayOp.stepBack =>
    ⟨max 0 (s.currentMoveIndex - 1), false⟩
  | ReplayOp.stepForward =>
    ⟨min total (s.currentMoveIndex + 1), false⟩
  | ReplayOp.goToStart => ⟨0, false⟩
  | ReplayOp.goToEnd => ⟨total, false⟩
  | ReplayOp.seek v => ⟨v, false⟩
  | ReplayOp.moveClick i => ⟨i, false⟩

/-- The payload bound that the rendered controls enforce: the slider has
`min={0} max={totalMoves} step={1}`, and every move-history entry's
click index lies in `[0, moves.length]`.  The other operations carry no
payload. -/
def opInRange (total : Int) : ReplayOp → Prop
  | ReplayOp.seek v => 0 ≤ v ∧ v ≤ total
  | ReplayOp.moveClick i => 0 ≤ i ∧ i ≤ total
  | _ => True

instance (total : Int) (op : ReplayOp) : Decidable (opInRange total op) := by
  cases op <;> simp only [opInRange] <;> infer_instance

/-- A concrete stored game after one legal move (X at cell 0), used as
a witness input. -/
def gOneMove : GameView :=
  { mode := Mode.local
    status := Status.in_progress
    player_x_id := some "p1"
    player_o_id := some "p1"
    board := List.set emptyBoard 0 (some Mark.X)
    current_turn := Mark.O
    winner := none
    is_draw := false
    winning_line := none
    moves := [⟨Mark.X, 0⟩] }

/-- The snapshot sequence the Replay Reconstructor produces for
`gOneMove`'s move log. -/
def snapsOneMove : List Snapshot :=
  [⟨emptyBoard, none⟩, ⟨List.set emptyBoard 0 (some Mark.X), some ⟨Mark.X, 0⟩⟩]

/-- A concrete two-move log (X at 0, then O at 4), a witness input. -/
def movesTwo : List Move := [⟨Mark.X, 0⟩, ⟨Mark.O, 4⟩]

/-- The snapshot sequence the Replay Reconstructor produces for
`movesTwo`. -/
def snapsTwo : List Snapshot :=
  [⟨emptyBoard, none⟩,
   ⟨List.set emptyBoard 0 (some Mark.X), some ⟨Mark.X, 0⟩⟩,
   ⟨List.set (List.set emptyBoard 0 (some Mark.X)) 4 (some Mark.O),
     some ⟨Mark.O, 4⟩⟩]

/-- A concrete online in-progress game with X bound to "alice", O bound
to "bob", and O to move — the input refuting claim C4 as stated. -/
def gOnline : GameView :=
  { mode := Mode.online
    status := Status.in_progress
    player_x_id := some "alice"
    player_o_id := some "bob"
    board := List.set emptyBoard 0 (some Mark.X)
    current_turn := Mark.O
    winner := none
    is_draw := false
    winning_line := none
    moves := [⟨Mark.X, 0⟩] }

/-- A concrete completed game (X won on the top row), a witness input. -/
def gDone : GameView :=
  { mode := Mode.online
    status := Status.completed
    player_x_id := some "alice"
    player_o_id := some "bob"
    board := [some Mark.X, some Mark.X, some Mark.X,
              some Mark.O, some Mark.O, none, none, none, none]
    current_turn := Mark.O
    winner := some Mark.X
    is_draw := false
    winning_line := some (0, 1, 2)
    moves := [⟨Mark.X, 0⟩, ⟨Mark.O, 3⟩, ⟨Mark.X, 1⟩, ⟨Mark.O, 4⟩,
              ⟨Mark.X, 2⟩] }

/-- A concrete local game, a witness input for claim C10. -/
def gLocal : GameView :=
  { mode := Mode.local
    status := Status.in_progress
    player_x_id := some "p1"
    player_o_id := some "p1"
    board := emptyBoard
    current_turn := Mark.X
    winner := none
    is_draw := false
    winning_line := none
    moves := [] }

theorem reconstructFrom_length :
    ∀ (ms : List Move) (b : Board) (snaps : List Snapshot),
      reconstructFrom b ms = some snaps → snaps.length = ms.length := by
  intro ms
  induction ms with
  | nil =>
    intro b snaps h
    simp only [reconstructFrom, Option.some.injEq] at h
    simp [← h]
  | cons m ms ih =>
    intro b snaps h
    cases happ : apply b m.symbol m.position with
    | none =>
      simp only [reconstructFrom, happ] at h
      exact Option.noConfusion h
    | some b2 =>
      cases hrec : reconstructFrom b2 ms with
      | none =>
        simp only [reconstructFrom, happ, hrec] at h
        exact Option.noConfusion h
      | some rest =>
        simp only [reconstructFrom, happ, hrec, Option.some.injEq] at h
        subst h
        simp [ih b2 rest hrec]

theorem reconstructFrom_get :
    ∀ (ms : List Move) (b : Board) (snaps : List Snapshot),
      reconstructFrom b ms = some snaps →
      ∀ i, i < ms.length →
        (snaps.getD i defaultSnap).move = some (ms.getD i defaultMove) ∧
        foldApply b (ms.take (i + 1)) =
          some ((snaps.getD i defaultSnap).board) := by
  intro ms
  induction ms with
  | nil =>
    intro b snaps _ i hi
    simp at hi
  | cons m ms ih =>
    intro b snaps h i hi
    cases happ : apply b m.symbol m.position with
    | none =>
      simp only [reconstructFrom, happ] at h
      exact Option.noConfusion h
    | some b2 =>
      cases hrec : reconstructFrom b2 ms with
      | none =>
        simp only [reconstructFrom, happ, hrec] at h
        exact Option.noConfusion h
      | some rest =>
        simp only [reconstructFrom, happ, hrec, Option.some.injEq] at h
        subst h
        cases i with
        | zero =>
          refine ⟨rfl, ?_⟩
          simp [foldApply, happ]
        | succ i =>
          have hstep := ih b2 rest hrec i (by simpa using hi)
          simpa [foldApply, happ] using hstep

theorem reconstruct_final :
    ∀ (moves : List Move) (snaps : List Snapshot),
      reconstruct moves = some snaps →
      foldApply emptyBoard moves =
        some ((snaps.getD moves.length defaultSnap).board) := by
  intro moves snaps h
  simp only [reconstruct] at h
  cases hrf : reconstructFrom emptyBoard moves with
  | none => rw [hrf] at h; cases h
  | some rest =>
    rw [hrf] at h
    injection h with h
    subst h
    cases moves with
    | nil =>
      have : rest = [] := by
        have := reconstructFrom_length [] emptyBoard rest hrf
        simpa using this
      subst this
      rfl
    | cons m ms =>
      have hget := reconstructFrom_get (m :: ms) emptyBoard rest hrf
        ms.length (by simp)
      have htake : (m :: ms).take (ms.length + 1) = m :: ms := by
        simp
      rw [htake] at hget
      simpa using hget.2

/-- C1: for every game satisfying the stored-document invariant (board
is the fold of the move log; outcome fields are the evaluation of that
board), the reconstructed snapshot sequence reproduces at its final
index `total_moves` exactly the stored board, and the stored winner /
draw / winning-line fields that ReplayPage renders at that index equal
the evaluation of the final snapshot's board — rendering the stored
outcome over the final snapshot never disagrees with that snapshot. -/
theorem replay_final_snapshot_matches_stored (g : GameView)
    (snaps : List Snapshot)
    (hinv : StoredInvariant g)
    (hrec : reconstruct g.moves = some snaps) :
    (snaps.getD g.moves.length defaultSnap).board = g.board ∧
    (g.winner, g.is_draw, g.winning_line) =
      outcomeFields
        (evaluate ((snaps.getD g.moves.length defaultSnap).board)) := by
  obtain ⟨hboard, hout⟩ := hinv
  have hfin := reconstruct_final g.moves snaps hrec
  have hb : (snaps.getD g.moves.length defaultSnap).board = g.board := by
    have hsome := hboard.symm.trans hfin
    exact (Option.some_inj.mp hsome).symm
  exact ⟨hb, by rw [hb]; exact hout⟩

/-- C1 witness: the one-move game `gOneMove`. -/
theorem replay_final_snapshot_matches_stored_witness :
    (snapsOneMove.getD gOneMove.moves.length defaultSnap).board
        = gOneMove.board ∧
    (gOneMove.winner, gOneMove.is_draw, gOneMove.winning_line) =
      outcomeFields
        (evaluate
          ((snapsOneMove.getD gOneMove.moves.length defaultSnap).board)) :=
  replay_final_snapshot_matches_stored gOneMove snapsOneMove
    (show _ ∧ _ from ⟨rfl, rfl⟩) rfl

/-- C2: for a move log of n moves the reconstructed snapshot sequence
has exactly n + 1 entries; index 0 is the empty starting board (and the
move-history list renders it as the "Start" entry clicking to index 0);
each index i + 1 with i < n pairs the board after the first i + 1 moves
with the move that produced it; hence every index from 0 to total_moves
inclusive that the replay page reads is a valid snapshot. -/
theorem replay_snapshot_sequence_shape (moves : List Move)
    (snaps : List Snapshot) (hrec : reconstruct moves = some snaps) :
    snaps.length = moves.length + 1 ∧
    snaps.getD 0 defaultSnap = ⟨emptyBoard, none⟩ ∧
    (∀ i, i < moves.length →
      (snaps.getD (i + 1) defaultSnap).move =
          some (moves.getD i defaultMove) ∧
      foldApply emptyBoard (moves.take (i + 1)) =
        some ((snaps.getD (i + 1) defaultSnap).board)) ∧
    (moveHistoryItems moves).getD 0 ⟨0, ""⟩ = ⟨0, "Start"⟩ := by
  simp only [reconstruct] at hrec
  cases hrf : reconstructFrom emptyBoard moves with
  | none => rw [hrf] at hrec; cases hrec
  | some rest =>
    rw [hrf] at hrec
    injection hrec with hrec
    subst hrec
    refine ⟨?_, rfl, ?_, rfl⟩
    · simp [reconstructFrom_length moves emptyBoard rest hrf]
    · intro i hi
      have hstep := reconstructFrom_get moves emptyBoard rest hrf i hi
      simpa using hstep

/-- C2 witness: the two-move log `movesTwo`. -/
theorem replay_snapshot_sequence_shape_witness :
    snapsTwo.length = movesTwo.length + 1 ∧
    snapsTwo.getD 0 defaultSnap = ⟨emptyBoard, none⟩ ∧
    (∀ i, i < movesTwo.length →
      (snapsTwo.getD (i + 1) defaultSnap).move =
          some (movesTwo.getD i defaultMove) ∧
      foldApply emptyBoard (movesTwo.take (i + 1)) =
        some ((snapsTwo.getD (i + 1) defaultSnap).board)) ∧
    (moveHistoryItems movesTwo).getD 0 ⟨0, ""⟩ = ⟨0, "Start"⟩ :=
  replay_snapshot_sequence_shape movesTwo snapsTwo rfl

theorem replayStep_bounds (total : Int) (s : ReplayState) (op : ReplayOp)
    (h0 : 0 ≤ s.currentMoveIndex) (h1 : s.currentMoveIndex ≤ total)
    (hop : opInRange total op) :
    0 ≤ (replayStep total s op).currentMoveIndex ∧
      (replayStep total s op).currentMoveIndex ≤ total := by
  cases op <;>
    simp only [replayStep, opInRange] at hop ⊢ <;>
    (try split_ifs) <;>
    simp_all <;>
    omega

theorem replayRun_bounds (total : Int) :
    ∀ (ops : List ReplayOp) (s : ReplayState),
      (∀ op ∈ ops, opInRange total op) →
      0 ≤ s.currentMoveIndex → s.currentMoveIndex ≤ total →
      0 ≤ (ops.foldl (replayStep total) s).currentMoveIndex ∧
        (ops.foldl (replayStep total) s).currentMoveIndex ≤ total := by
  intro ops
  induction ops with
  | nil => intro s _ h0 h1; exact ⟨h0, h1⟩
  | cons op ops ih =>
    intro s hops h0 h1
    have hstep := replayStep_bounds total s op h0 h1 (hops op (by simp))
    have hrest := ih (replayStep total s op)
      (fun o ho => hops o (by simp [ho])) hstep.1 hstep.2
    simpa using hrest

/-- C3: starting from index 0, every sequence of replay control
operations (play tick, pause, play, step back, step forward, go to
start, go to end, a slider seek whose value respects the slider's
`min={0} max={totalMoves}` bounds, and a move-history click on a
rendered entry) keeps the current move index an integer in the closed
range [0, total_moves], so no snapshot read goes outside the
sequence. -/
theorem replay_index_stays_in_range (total : Int) (ops : List ReplayOp)
    (htot : 0 ≤ total) (hops : ∀ op ∈ ops, opInRange total op) :
    0 ≤ (ops.foldl (replayStep total) initialReplayState).currentMoveIndex ∧
      (ops.foldl (replayStep total) initialReplayState).currentMoveIndex
        ≤ total :=
  replayRun_bounds total ops initialReplayState hops
    (by simp [initialReplayState]) (by simpa [initialReplayState] using htot)

/-- C3 witness: a concrete operation sequence over a 2-move replay. -/
theorem replay_index_stays_in_range_witness :
    0 ≤ (([ReplayOp.play, ReplayOp.playTick, ReplayOp.stepForward,
           ReplayOp.seek 1, ReplayOp.moveClick 2, ReplayOp.stepBack,
           ReplayOp.goToEnd, ReplayOp.playTick, ReplayOp.goToStart,
           ReplayOp.pause].foldl (replayStep 2)
          initialReplayState).currentMoveIndex) ∧
      (([ReplayOp.play, ReplayOp.playTick, ReplayOp.stepForward,
         ReplayOp.seek 1, ReplayOp.moveClick 2, ReplayOp.stepBack,
         ReplayOp.goToEnd, ReplayOp.playTick, ReplayOp.goToStart,
         ReplayOp.pause].foldl (replayStep 2)
        initialReplayState).currentMoveIndex) ≤ 2 :=
  replay_index_stays_in_range 2
    [ReplayOp.play, ReplayOp.playTick, ReplayOp.stepForward,
     ReplayOp.seek 1, ReplayOp.moveClick 2, ReplayOp.stepBack,
     ReplayOp.goToEnd, ReplayOp.playTick, ReplayOp.goToStart,
     ReplayOp.pause]
    (by decide) (by decide)

/-- C4 counterexample: in the online game `gOnline` (X = "alice",
O = "bob", O to move) the cell-click handler submits a move for user
"carol", who is bound to neither mark — refuting the claim that a user
bound to neither mark never has a move submitted on their behalf. -/
theorem handleCellClick_nonparticipant_submits :
    (handleCellClick (some gOnline) false (some "carol") 4).isSome = true ∧
    gOnline.player_x_id ≠ some "carol" ∧
    gOnline.player_o_id ≠ some "carol" := by
  refine ⟨rfl, ?_, ?_⟩ <;> simp [gOnline]

/-- C4 (amended): with an in-progress game and no pending action, the
handler submits a move exactly when the game is local, or it is X's
turn and the acting user is the X participant, or it is O's turn and
the acting user is *not* the X participant.  Both bound participants
can therefore act only on their own turn, but the O-side test is only
"not player X", so it does not exclude users bound to neither mark. -/
theorem handleCellClick_submits_iff (g : GameView) (pid : Option String)
    (pos : Nat) (hs : g.status = Status.in_progress) :
    (handleCellClick (some g) false pid pos).isSome = true ↔
      (g.mode = Mode.local ∨
        (g.current_turn = Mark.X ∧ idEq pid g.player_x_id = true) ∨
        (g.current_turn = Mark.O ∧ idEq pid g.player_x_id = false)) := by
  cases hmode : g.mode <;> cases ht : g.current_turn <;>
    cases hx : idEq pid g.player_x_id <;>
      simp [handleCellClick, hs, hmode, ht, hx]

/-- C4 witness: participant "bob" (the O player) on O's turn in
`gOnline` — the iff holds at that concrete input. -/
theorem handleCellClick_submits_iff_witness :
    (handleCellClick (some gOnline) false (some "bob") 5).isSome = true ↔
      (gOnline.mode = Mode.local ∨
        (gOnline.current_turn = Mark.X ∧
          idEq (some "bob") gOnline.player_x_id = true) ∨
        (gOnline.current_turn = Mark.O ∧
          idEq (some "bob") gOnline.player_x_id = false)) :=
  handleCellClick_submits_iff gOnline (some "bob") 5 rfl

/-- C5: when the held game's status is not `in_progress` the cell-click
handler issues no move request and leaves the held game state
unchanged; the board passed to `GameBoard` is disabled for waiting and
completed games; and every occupied cell's button is disabled whatever
the board-level flag is. -/
theorem click_rejected_when_not_in_progress (g : GameView) (al : Bool)
    (pid : Option String) (pos : Nat) (resp : GameView)
    (hs : g.status ≠ Status.in_progress) :
    handleCellClick (some g) al pid pos = none ∧
    clickStep (some g) al pid pos resp = (some g, false) ∧
    gameBoardDisabled g al = true ∧
    (∀ (d : Bool) (c : Cell), c ≠ none → gameCellDisabled d c = true) := by
  have hnone : handleCellClick (some g) al pid pos = none := by
    have hc : ¬(g.status = Status.in_progress ∧ al = false) := by
      intro hc
      exact hs hc.1
    simp [handleCellClick, hc]
  refine ⟨hnone, by simp [clickStep, hnone], ?_, ?_⟩
  · cases hst : g.status with
    | waiting => simp [gameBoardDisabled, hst]
    | completed => simp [gameBoardDisabled, hst]
    | in_progress => exact absurd hst hs
  · intro d c hc
    simp [gameCellDisabled, hc]

/-- C5 witness: a click on the completed game `gDone`. -/
theorem click_rejected_when_not_in_progress_witness :
    handleCellClick (some gDone) false (some "alice") 5 = none ∧
    clickStep (some gDone) false (some "alice") 5 gLocal
      = (some gDone, false) ∧
    gameBoardDisabled gDone false = true ∧
    (∀ (d : Bool) (c : Cell), c ≠ none → gameCellDisabled d c = true) :=
  click_rejected_when_not_in_progress gDone false (some "alice") 5 gLocal
    (by decide)

/-- C6: the websocket-message effect leaves the held game state
unchanged and navigates nowhere on `player_disconnected` (it is purely
informational); replaces the held game with the carried game on
`game_update`, `connected` and `player_joined`; and on
`rematch_created` leaves the game and navigates to the carried new game
id. -/
theorem ws_message_effects (g0 : Option GameView) (g : GameView)
    (nid : String) :
    onWsMessage WsMsg.player_disconnected g0 = (g0, none) ∧
    onWsMessage (WsMsg.game_update g) g0 = (some g, none) ∧
    onWsMessage (WsMsg.connected g) g0 = (some g, none) ∧
    onWsMessage (WsMsg.player_joined g) g0 = (some g, none) ∧
    onWsMessage (WsMsg.rematch_created nid) g0
      = (g0, some ("/game/" ++ nid)) :=
  ⟨rfl, rfl, rfl, rfl, rfl⟩

/-- C7: the hook pings with a `ping` message on a 30000 ms interval
while the socket is open (and not otherwise); a parsed inbound `pong`
is never surfaced as `lastMessage` while any other parsed message is;
and on close the ping interval is cleared and a reconnect is scheduled
after 2000 ms. -/
theorem websocket_liveness_protocol (d : InMsg) (last : Option InMsg)
    (hd : d.type ≠ "pong") :
    pingIntervalMs = 30000 ∧
    reconnectDelayMs = 2000 ∧
    pingTick true = some ⟨"ping"⟩ ∧
    pingTick false = none ∧
    onWsRaw (some ⟨"pong"⟩) last = last ∧
    onWsRaw (some d) last = some d ∧
    (∀ s : WsConnState, (onWsClose s).pingIntervalActive = false ∧
      (onWsClose s).reconnectScheduledMs = some 2000) := by
  refine ⟨rfl, rfl, rfl, rfl, rfl, ?_, fun s => ⟨rfl, rfl⟩⟩
  simp [onWsRaw, hd]

/-- C7 witness: a `game_update` payload is surfaced. -/
theorem websocket_liveness_protocol_witness :
    pingIntervalMs = 30000 ∧
    reconnectDelayMs = 2000 ∧
    pingTick true = some ⟨"ping"⟩ ∧
    pingTick false = none ∧
    onWsRaw (some ⟨"pong"⟩) none = none ∧
    onWsRaw (some ⟨"game_update"⟩) none = some ⟨"game_update"⟩ ∧
    (∀ s : WsConnState, (onWsClose s).pingIntervalActive = false ∧
      (onWsClose s).reconnectScheduledMs = some 2000) :=
  websocket_liveness_protocol ⟨"game_update"⟩ none (by decide)

/-- C8 counterexample: the stored entry "ABC12 " (uppercase, 6
characters, trailing space) passes the 6-character submit gate, yet the
transmitted code is its trimmed uppercase "ABC12", not the uppercase of
the entry itself — refuting "the transmitted code equals exactly the
uppercase form of the entered code". -/
theorem join_code_trim_counterexample :
    joinButtonEnabled false "ABC12 " = true ∧
    handleJoinByCode (some "p1") "ABC12 " = some "ABC12" ∧
    jsToUpper "ABC12 " = "ABC12 " ∧
    handleJoinByCode (some "p1") "ABC12 " ≠ some (jsToUpper "ABC12 ") := by
  refine ⟨rfl, rfl, rfl, ?_⟩
  decide

/-- C8 (amended): the transmitted join-by-code code equals the uppercase
of the *trimmed* entered code (hence exactly the uppercase of the
entered code whenever the entry carries no surrounding whitespace); the
lookup-by-code request transmits exactly the uppercase of its argument;
the join action can only be submitted when the entered code has exactly
6 characters; and the input stores at most 6 (uppercased) characters. -/
theorem join_code_uppercase (p code : String) (l : Bool)
    (hne : jsTrim code ≠ "") :
    handleJoinByCode (some p) code = some (jsToUpper (jsTrim code)) ∧
    getGameByCodeSent code = jsToUpper code ∧
    (joinButtonEnabled l code = true → code.length = 6) ∧
    (jsTrim code = code →
      handleJoinByCode (some p) code = some (jsToUpper code)) ∧
    (gameCodeInput code).length ≤ 6 := by
  refine ⟨?_, rfl, ?_, ?_, ?_⟩
  · simp [handleJoinByCode, joinGameByCodeSent, hne]
  · intro h
    simp only [joinButtonEnabled, Bool.not_eq_true', Bool.or_eq_false_iff,
      decide_eq_false_iff_not, Decidable.not_not] at h
    exact h.2
  · intro heq
    rw [heq] at hne
    simp [handleJoinByCode, joinGameByCodeSent, heq, hne]
  · show (List.map Char.toUpper (List.take 6 (String.toList code))).length ≤ 6
    rw [List.length_map, List.length_take]
    exact Nat.min_le_left _ _

/-- C8 witness: the whitespace-free entry "abc123". -/
theorem join_code_uppercase_witness :
    handleJoinByCode (some "p1") "abc123"
        = some (jsToUpper (jsTrim "abc123")) ∧
    getGameByCodeSent "abc123" = jsToUpper "abc123" ∧
    (joinButtonEnabled false "abc123" = true → "abc123".length = 6) ∧
    (jsTrim "abc123" = "abc123" →
      handleJoinByCode (some "p1") "abc123" = some (jsToUpper "abc123")) ∧
    (gameCodeInput "abc123").length ≤ 6 :=
  join_code_uppercase "p1" "abc123" false (by decide)

/-- C9: `positionToCoord` maps cell index p to
(⌊p / 3⌋ + 1, p mod 3 + 1); on 0-8 every result lies in
{1, 2, 3} × {1, 2, 3}, the mapping is injective there, and every pair
of that set is reached — a bijection between cell indices and board
coordinates. -/
theorem positionToCoord_bijection :
    (∀ p : Fin 9, ((positionToCoord p.val).1 = 1 ∨
        (positionToCoord p.val).1 = 2 ∨ (positionToCoord p.val).1 = 3) ∧
      ((positionToCoord p.val).2 = 1 ∨
        (positionToCoord p.val).2 = 2 ∨ (positionToCoord p.val).2 = 3)) ∧
    (∀ p q : Fin 9,
      positionToCoord p.val = positionToCoord q.val → p = q) ∧
    (∀ r c : Fin 3, ∃ p : Fin 9,
      positionToCoord p.val = (r.val + 1, c.val + 1)) := by
  decide

/-- C10: when the held game is absent or not an online game, GamePage
passes a null game id to `useWebSocket`, whose `connect` is then a
no-op: no socket is created, the connection state is untouched, and the
`isConnected` flag (initially false) stays false. -/
theorem local_game_no_websocket (game : Option GameView) (gid : String)
    (pid : Option String) (s : WsConnState)
    (hmode : ∀ g, game = some g → g.mode ≠ Mode.online) :
    wsHookGameId game gid = none ∧
    connect (wsHookGameId game gid) pid s = s ∧
    initialWsState.isConnected = false ∧
    (connect (wsHookGameId game gid) pid initialWsState).isConnected
      = false := by
  have hnone : wsHookGameId game gid = none := by
    cases game with
    | none => rfl
    | some g =>
      have hg := hmode g rfl
      simp [wsHookGameId, hg]
  refine ⟨hnone, ?_, rfl, ?_⟩ <;>
    simp [hnone, connect, strTruthy, initialWsState]

/-- C10 witness: the local game `gLocal`. -/
theorem local_game_no_websocket_witness :
    wsHookGameId (some gLocal) "g1" = none ∧
    connect (wsHookGameId (some gLocal) "g1") (some "p1") initialWsState
      = initialWsState ∧
    initialWsState.isConnected = false ∧
    (connect (wsHookGameId (some gLocal) "g1") (some "p1")
        initialWsState).isConnected = false :=
  local_game_no_websocket (some gLocal) "g1" (some "p1") initialWsState
    (fun g hg => by cases hg; decide)

end TTT
